import Mathlib

/-!
Verification of the template-convex-react-vite repository.

This file shallowly embeds the first-party logic of the repository:

* `deleteDialogMachine` (src/machines/deleteDialogMachine.ts, XState v5):
  states, context, actions (`setItemToDelete`, `clearItem`, `setError`),
  the transition structure of `createMachine`, and the helper
  `isDialogOpen`.
* `extractUserId` (src/convex/lib/auth.ts).
* The `tasks` Convex functions (`create`, `toggle`, `remove`,
  src/convex/tasks.ts) over an association-list model of the `tasks`
  table, together with the schema declared in src/convex/schema.ts.

The theorems at the end settle the spec claims about these components.
-/

namespace DeleteDialog

/-- The four states of `deleteDialogMachine`: `closed` plus the
hierarchical `open` state's substates `idle`, `deleting`, `error`. -/
inductive DialogState where
  | closed
  | openIdle
  | openDeleting
  | openError
deriving DecidableEq, Repr

/-- `DeleteDialogContext`: `itemId`, `itemTitle`, `error`, each nullable.
`Id<"tasks">` is modelled as `String`. -/
structure DialogContext where
  itemId : Option String
  itemTitle : Option String
  error : Option String
deriving DecidableEq, Repr

/-- A machine snapshot: finite-state part plus context. -/
structure Snapshot where
  state : DialogState
  ctx : DialogContext
deriving DecidableEq, Repr

/-- The rejected value observed by the `setError` action
(`event.error : unknown`): an `Error` object carrying a `.message`,
a plain string, or anything else. -/
inductive RejectedValue where
  | errObj (message : String)
  | strVal (s : String)
  | otherVal
deriving DecidableEq, Repr

/-- `DeleteDialogEvents` plus the two internal events delivered by the
invoked `deleteItem` promise actor while in `open.deleting`:
`invokeDone` (the promise resolved) and `invokeError` (it rejected). -/
inductive DialogEvent where
  | OPEN (itemId : String) (itemTitle : String)
  | CLOSE
  | CONFIRM
  | RETRY
  | invokeDone
  | invokeError (v : RejectedValue)
deriving DecidableEq, Repr

/-- The `setItemToDelete` action: each assignment checks
`event.type === "OPEN"`; `error` is reset to `null`. -/
def setItemToDelete (e : DialogEvent) : DialogContext :=
  { itemId := match e with | .OPEN id _ => some id | _ => none
    itemTitle := match e with | .OPEN _ t => some t | _ => none
    error := none }

/-- The `clearItem` action: all three context fields become `null`. -/
def clearItem : DialogContext :=
  { itemId := none, itemTitle := none, error := none }

/-- The message computed by the `setError` action from the rejected
value: `.message` of an `Error`, the string itself, or the fallback. -/
def errorMessage : RejectedValue → String
  | .errObj m => m
  | .strVal s => s
  | .otherVal => "An unknown error occurred"

/-- The `setError` action: sets `error`, leaves `itemId`/`itemTitle`. -/
def setError (c : DialogContext) (v : RejectedValue) : DialogContext :=
  { c with error := some (errorMessage v) }

/-- The initial snapshot of `createMachine`: `initial: "closed"` with
all-null context. -/
def initialSnapshot : Snapshot :=
  { state := .closed, ctx := clearItem }

/-- One transition of `deleteDialogMachine`, read off the `states`
block of `createMachine`.  Events with no handler in the current state
are discarded (XState semantics); the invoked actor's `onDone`/`onError`
events only have handlers in `open.deleting`. -/
def step (s : Snapshot) (e : DialogEvent) : Snapshot :=
  match s.state, e with
  | .closed, .OPEN id t => { state := .openIdle, ctx := setItemToDelete (.OPEN id t) }
  | .openIdle, .CLOSE => { state := .closed, ctx := clearItem }
  | .openIdle, .CONFIRM => { state := .openDeleting, ctx := s.ctx }
  | .openDeleting, .invokeDone => { state := .closed, ctx := clearItem }
  | .openDeleting, .invokeError v => { state := .openError, ctx := setError s.ctx v }
  | .openError, .RETRY => { state := .openDeleting, ctx := s.ctx }
  | .openError, .CLOSE => { state := .closed, ctx := clearItem }
  | _, _ => s

/-- Run the machine over a list of events. -/
def run (s : Snapshot) (es : List DialogEvent) : Snapshot :=
  es.foldl step s

/-- The `input` computed for the invoked `deleteItem` actor,
`({ context }) => ({ itemId: context.itemId! })`: the TypeScript `!` is
a cast, so the value passed is `context.itemId` as it stands. -/
def invokeInput (s : Snapshot) : Option String :=
  s.ctx.itemId

/-- Snapshots reachable from the machine's initial snapshot. -/
inductive Reachable : Snapshot → Prop where
  | init : Reachable initialSnapshot
  | step (s : Snapshot) (e : DialogEvent) : Reachable s → Reachable (step s e)

/-- Instrumented step: additionally logs, on each entry into
`open.deleting`, the `input` the invoked `deleteItem` actor receives.
XState starts one actor instance per entry into the invoking state. -/
def stepLog (p : Snapshot × List (Option String)) (e : DialogEvent) :
    Snapshot × List (Option String) :=
  let s' := step p.1 e
  if p.1.state ≠ .openDeleting ∧ s'.state = .openDeleting then
    (s', p.2 ++ [invokeInput s'])
  else
    (s', p.2)

end DeleteDialog

namespace DeleteDialog

/-- An XState state value, as `snapshot.value` exposes it for this
machine: the string `"closed"`, or the object `{ open: <substate> }`. -/
inductive StateValue where
  | str (s : String)
  | openObj (sub : String)
deriving DecidableEq, Repr

/-- The raw state value of each machine state. -/
def stateValue : DialogState → StateValue
  | .closed => .str "closed"
  | .openIdle => .openObj "idle"
  | .openDeleting => .openObj "deleting"
  | .openError => .openObj "error"

/-- `snapshot.matches(q)` for the leaf queries `isDialogOpen` uses:
the snapshot's value equals the queried value. -/
def matchesValue (st : DialogState) (q : StateValue) : Bool :=
  stateValue st = q

/-- The first branch of `isDialogOpen`:
`state.matches({open:"idle"}) || state.matches({open:"deleting"}) ||
state.matches({open:"error"})`. -/
def isDialogOpen (st : DialogState) : Bool :=
  matchesValue st (.openObj "idle") ||
  matchesValue st (.openObj "deleting") ||
  matchesValue st (.openObj "error")

/-- The second branch of `isDialogOpen`, for raw state values:
`typeof value === "object" && value !== null && "open" in value`. -/
def rawValueHasOpenKey : StateValue → Bool
  | .openObj _ => true
  | .str _ => false

/-- The externally sent events of `DeleteDialogEvents`, as opposed to
the internal actor-completion events. -/
def externalEvent : DialogEvent → Bool
  | .OPEN _ _ => true
  | .CLOSE => true
  | .CONFIRM => true
  | .RETRY => true
  | .invokeDone => false
  | .invokeError _ => false

/-- The context invariant of the machine: a closed dialog has an
all-null context, and an open dialog always carries an item id and an
item title. -/
def ContextInvariant (s : Snapshot) : Prop :=
  (s.state = .closed → s.ctx = clearItem) ∧
  (s.state ≠ .closed → s.ctx.itemId ≠ none ∧ s.ctx.itemTitle ≠ none)

end DeleteDialog

namespace ConvexBackend

/-- `extractUserId` on the character list of the subject:
`indexOf("|")` modelled as the index of the first `'|'` (`none` for
JavaScript's `-1`), then `substring(0, pipeIndex)` as `take`. -/
def indexOfPipe : List Char → Option Nat
  | [] => none
  | c :: cs => if c = '|' then some 0 else (indexOfPipe cs).map (· + 1)

/-- `extractUserId` from src/convex/lib/auth.ts on character lists. -/
def extractUserIdChars (s : List Char) : List Char :=
  match indexOfPipe s with
  | some i => s.take i
  | none => s

/-- `extractUserId` on strings. -/
def extractUserId (s : String) : String :=
  { data := extractUserIdChars s.data }

/-- `getAuthUserId`: the auth context is `none` when
`ctx.auth.getUserIdentity()` yields `null` (the function throws), and
otherwise `some subject`; on success the result is
`extractUserId(identity.subject)`. -/
def getAuthUserId (auth : Option String) : Except String String :=
  match auth with
  | none => .error "Unauthorized: You must be logged in to perform this action"
  | some subject => .ok (extractUserId subject)

/-- A document of the `tasks` table (src/convex/schema.ts):
`userId: v.string()`, `title: v.string()`,
`description: v.optional(v.string())`, `completed: v.boolean()`,
`createdAt: v.number()` (`Date.now()` is an integer-valued number). -/
structure Task where
  userId : String
  title : String
  description : Option String
  completed : Bool
  createdAt : Int
deriving DecidableEq, Repr

/-- The `tasks` table: an association list from document ids (modelled
as `Nat`) to documents. -/
abbrev Db := List (Nat × Task)

/-- `ctx.db.get(id)`: the document with the given id, if any. -/
def dbGet : Db → Nat → Option Task
  | [], _ => none
  | (a, t) :: rest, id => if a = id then some t else dbGet rest id

/-- `ctx.db.delete(id)`: remove the document with the given id. -/
def dbDelete (db : Db) (id : Nat) : Db :=
  db.filter (fun p => p.1 ≠ id)

/-- `ctx.db.patch(id, { completed })`: merge the patch into the
document with the given id, leaving its other fields alone. -/
def dbPatchCompleted (db : Db) (id : Nat) (c : Bool) : Db :=
  db.map (fun p => if p.1 = id then (p.1, { p.2 with completed := c }) else p)

/-- `ctx.db.insert("tasks", doc)`: append a fresh document. -/
def dbInsert (db : Db) (id : Nat) (t : Task) : Db :=
  db ++ [(id, t)]

/-- The `tasks.create` handler.  `now` stands for `Date.now()` and
`newId` for the id Convex assigns to the inserted document.  Returns
the new task id and the updated table; a thrown error leaves the table
as it was. -/
def create (auth : Option String) (db : Db) (title : String)
    (descr : Option String) (now : Int) (newId : Nat) :
    Except String (Nat × Db) × Db :=
  match getAuthUserId auth with
  | .error m => (.error m, db)
  | .ok userId =>
      let db' := dbInsert db newId
        { userId := userId, title := title, description := descr
          completed := false, createdAt := now }
      (.ok (newId, db'), db')

/-- The `tasks.toggle` handler: auth check, `db.get`, `Task not found`,
ownership check, `Unauthorized`, then patch `completed` to its
negation.  The second component is the table after the call (unchanged
whenever an error is thrown, all throws occurring before the patch). -/
def toggle (auth : Option String) (db : Db) (id : Nat) :
    Except String Unit × Db :=
  match getAuthUserId auth with
  | .error m => (.error m, db)
  | .ok userId =>
      match dbGet db id with
      | none => (.error "Task not found", db)
      | some task =>
          if task.userId ≠ userId then
            (.error "Unauthorized", db)
          else
            (.ok (), dbPatchCompleted db id (!task.completed))

/-- The `tasks.remove` handler: auth check, `db.get`, `Task not
found`, ownership check, `Unauthorized`, then `db.delete`. -/
def remove (auth : Option String) (db : Db) (id : Nat) :
    Except String Unit × Db :=
  match getAuthUserId auth with
  | .error m => (.error m, db)
  | .ok userId =>
      match dbGet db id with
      | none => (.error "Task not found", db)
      | some task =>
          if task.userId ≠ userId then
            (.error "Unauthorized", db)
          else
            (.ok (), dbDelete db id)

/-- A stored field value, for checking documents against the declared
validators. -/
inductive Value where
  | vString (s : String)
  | vNumber (n : Int)
  | vBool (b : Bool)
deriving DecidableEq, Repr

/-- The fields of a stored `tasks` document, as a field-name map. -/
def taskToDoc (t : Task) : List (String × Value) :=
  [("userId", Value.vString t.userId), ("title", Value.vString t.title)] ++
    (match t.description with
     | some d => [("description", Value.vString d)]
     | none => []) ++
    [("completed", Value.vBool t.completed),
     ("createdAt", Value.vNumber t.createdAt)]

/-- The `tasks` table validator from src/convex/schema.ts: `userId`
and `title` are strings, `description` is an optional string,
`completed` is a boolean, `createdAt` is a number. -/
def taskDocConforms (d : List (String × Value)) : Bool :=
  (match (d.lookup "userId") with
   | some (Value.vString _) => true | _ => false) &&
  (match (d.lookup "title") with
   | some (Value.vString _) => true | _ => false) &&
  (match (d.lookup "description") with
   | none => true | some (Value.vString _) => true | _ => false) &&
  (match (d.lookup "completed") with
   | some (Value.vBool _) => true | _ => false) &&
  (match (d.lookup "createdAt") with
   | some (Value.vNumber _) => true | _ => false)

end ConvexBackend

example :
    DeleteDialog.run DeleteDialog.initialSnapshot
      [.OPEN "t1" "Groceries", .CONFIRM, .invokeDone] =
    DeleteDialog.initialSnapshot := by decide

example :
    (DeleteDialog.run DeleteDialog.initialSnapshot
      [.OPEN "t1" "Groceries", .CONFIRM,
       .invokeError (.errObj "boom")]).state = .openError := by decide

namespace DeleteDialog

lemma contextInvariant_init : ContextInvariant initialSnapshot := by
  constructor
  · intro _; rfl
  · intro h; exact absurd rfl h

lemma contextInvariant_step (s : Snapshot) (e : DialogEvent)
    (h : ContextInvariant s) : ContextInvariant (step s e) := by
  obtain ⟨st, c⟩ := s
  obtain ⟨hclosed, hopen⟩ := h
  cases st <;> cases e <;>
    refine ⟨fun hc => ?_, fun ho => ?_⟩ <;>
    simp_all [step, setItemToDelete, clearItem, setError]

lemma reachable_invariant (s : Snapshot) (h : Reachable s) :
    ContextInvariant s := by
  induction h with
  | init => exact contextInvariant_init
  | step s e _ ih => exact contextInvariant_step s e ih

/-- C1: `deleteDialogMachine` has exactly the four states `closed`,
`open.idle`, `open.deleting`, `open.error`, every reachable snapshot is
in one of them, the chain `closed -OPEN-> open.idle -CONFIRM->
open.deleting -actor failure-> open.error` consists of the machine's
transitions, `RETRY` in `open.error` returns to `open.deleting`, and
each of `open.idle`, `open.deleting`, `open.error` can only be entered
through the transitions of this chain. -/
theorem spec_c1_four_states_and_transition_chain :
    (∀ s : Snapshot, Reachable s →
      s.state = DialogState.closed ∨ s.state = DialogState.openIdle ∨
      s.state = DialogState.openDeleting ∨ s.state = DialogState.openError) ∧
    (∀ (c : DialogContext) (id t : String),
      (step ⟨.closed, c⟩ (.OPEN id t)).state = DialogState.openIdle) ∧
    (∀ c : DialogContext,
      (step ⟨.openIdle, c⟩ .CONFIRM).state = DialogState.openDeleting) ∧
    (∀ (c : DialogContext) (v : RejectedValue),
      (step ⟨.openDeleting, c⟩ (.invokeError v)).state = DialogState.openError) ∧
    (∀ c : DialogContext,
      (step ⟨.openError, c⟩ .RETRY).state = DialogState.openDeleting) ∧
    (∀ (s : Snapshot) (e : DialogEvent),
      (step s e).state = DialogState.openIdle → s.state ≠ DialogState.openIdle →
      s.state = DialogState.closed ∧ ∃ id t, e = DialogEvent.OPEN id t) ∧
    (∀ (s : Snapshot) (e : DialogEvent),
      (step s e).state = DialogState.openDeleting → s.state ≠ DialogState.openDeleting →
      (s.state = DialogState.openIdle ∧ e = DialogEvent.CONFIRM) ∨
      (s.state = DialogState.openError ∧ e = DialogEvent.RETRY)) ∧
    (∀ (s : Snapshot) (e : DialogEvent),
      (step s e).state = DialogState.openError → s.state ≠ DialogState.openError →
      s.state = DialogState.openDeleting ∧ ∃ v, e = DialogEvent.invokeError v) := by
  refine ⟨?_, fun c id t => rfl, fun c => rfl, fun c v => rfl, fun c => rfl, ?_, ?_, ?_⟩
  · intro s _; obtain ⟨st, c⟩ := s; cases st <;> simp
  · intro s e h1 h2; obtain ⟨st, c⟩ := s; cases st <;> cases e <;> simp_all [step]
  · intro s e h1 h2; obtain ⟨st, c⟩ := s; cases st <;> cases e <;> simp_all [step]
  · intro s e h1 h2; obtain ⟨st, c⟩ := s; cases st <;> cases e <;> simp_all [step]

/-- Witness for C1 at concrete inputs: the initial snapshot is among
the four states, and each entry-uniqueness component applied to a
concrete transition. -/
theorem spec_c1_witness :
    (initialSnapshot.state = DialogState.closed ∨
     initialSnapshot.state = DialogState.openIdle ∨
     initialSnapshot.state = DialogState.openDeleting ∨
     initialSnapshot.state = DialogState.openError) ∧
    (Snapshot.mk .closed clearItem).state = DialogState.closed ∧
    ((Snapshot.mk .openIdle clearItem).state = DialogState.openIdle ∧
      DialogEvent.CONFIRM = DialogEvent.CONFIRM ∨
     (Snapshot.mk .openIdle clearItem).state = DialogState.openError ∧
      DialogEvent.CONFIRM = DialogEvent.RETRY) ∧
    (Snapshot.mk .openDeleting clearItem).state = DialogState.openDeleting :=
  ⟨spec_c1_four_states_and_transition_chain.1 initialSnapshot Reachable.init,
   (spec_c1_four_states_and_transition_chain.2.2.2.2.2.1
      ⟨.closed, clearItem⟩ (.OPEN "t1" "A") (by decide) (by decide)).1,
   spec_c1_four_states_and_transition_chain.2.2.2.2.2.2.1
      ⟨.openIdle, clearItem⟩ .CONFIRM (by decide) (by decide),
   (spec_c1_four_states_and_transition_chain.2.2.2.2.2.2.2
      ⟨.openDeleting, clearItem⟩ (.invokeError .otherVal) (by decide) (by decide)).1⟩

/-- C2 counterexample: on the successful path (OPEN, CONFIRM, actor
resolves) the machine lands exactly in its initial snapshot — the
`closed` state it started from with cleared context — so there is no
distinct success state after deleting, and no error state either. -/
theorem spec_c2_counterexample_no_distinct_success_state :
    run initialSnapshot [.OPEN "task-1" "Groceries", .CONFIRM, .invokeDone] =
      initialSnapshot ∧
    (run initialSnapshot
      [.OPEN "task-1" "Groceries", .CONFIRM, .invokeDone]).state ≠
      DialogState.openError := by decide

/-- C2 (amended): the lifecycle is closed (idle) → open.idle
(confirming, a state distinct from closed) → open.deleting; after
deleting, on failure the machine reaches the distinct error state
(from which RETRY returns to deleting), and on success it returns to
the `closed` state — the same state as the idle start, with cleared
context — rather than a distinct success state. -/
theorem spec_c2_amended_lifecycle :
    (∀ (c : DialogContext) (id t : String),
      step ⟨.closed, c⟩ (.OPEN id t) = ⟨.openIdle, ⟨some id, some t, none⟩⟩) ∧
    DialogState.openIdle ≠ DialogState.closed ∧
    (∀ c : DialogContext, step ⟨.openIdle, c⟩ .CONFIRM = ⟨.openDeleting, c⟩) ∧
    (∀ c : DialogContext, step ⟨.openDeleting, c⟩ .invokeDone = initialSnapshot) ∧
    (∀ (c : DialogContext) (v : RejectedValue),
      (step ⟨.openDeleting, c⟩ (.invokeError v)).state = DialogState.openError) ∧
    (∀ c : DialogContext, step ⟨.openError, c⟩ .RETRY = ⟨.openDeleting, c⟩) :=
  ⟨fun c id t => rfl, by decide, fun c => rfl, fun c => rfl,
   fun c v => rfl, fun c => rfl⟩

/-- C8: in every reachable snapshot, an open dialog (any state other
than `closed`) has non-null `itemId` and `itemTitle`, a closed dialog
has `itemId`, `itemTitle` and `error` all null, and in `open.deleting`
the input built for the invoked actor (`context.itemId!`) is never
null. -/
theorem spec_c8_open_context_nonnull (s : Snapshot) (h : Reachable s) :
    (s.state ≠ DialogState.closed →
      s.ctx.itemId ≠ none ∧ s.ctx.itemTitle ≠ none) ∧
    (s.state = DialogState.closed →
      s.ctx.itemId = none ∧ s.ctx.itemTitle = none ∧ s.ctx.error = none) ∧
    (s.state = DialogState.openDeleting → invokeInput s ≠ none) := by
  obtain ⟨hclosed, hopen⟩ := reachable_invariant s h
  refine ⟨hopen, fun hc => ?_, fun hd => ?_⟩
  · rw [hclosed hc]; exact ⟨rfl, rfl, rfl⟩
  · exact (hopen (by simp [hd])).1

/-- Witness for C8: the invariant applied to the concrete reachable
snapshots `initialSnapshot` and the one reached by one OPEN event. -/
theorem spec_c8_witness :
    ((step initialSnapshot (.OPEN "t1" "A")).ctx.itemId ≠ none ∧
     (step initialSnapshot (.OPEN "t1" "A")).ctx.itemTitle ≠ none) ∧
    (initialSnapshot.ctx.itemId = none ∧ initialSnapshot.ctx.itemTitle = none ∧
     initialSnapshot.ctx.error = none) :=
  ⟨(spec_c8_open_context_nonnull (step initialSnapshot (.OPEN "t1" "A"))
      (Reachable.step _ _ Reachable.init)).1 (by decide),
   (spec_c8_open_context_nonnull initialSnapshot Reachable.init).2.1 rfl⟩

/-- C3: OPEN from `closed` stores the event's `itemId`/`itemTitle` in
the context; every transition that keeps the dialog open preserves
`context.itemId`; CONFIRM in `open.idle` moves to `open.deleting` and
logs exactly one actor invocation, whose input is `context.itemId`;
external events in `open.deleting` neither change the snapshot nor
invoke again; opening with id `id` and confirming therefore invokes
once with input `id`; and when the actor resolves the machine closes
with `itemId`, `itemTitle` and `error` all null. -/
theorem spec_c3_confirm_invokes_delete_once :
    (∀ (c : DialogContext) (id t : String),
      step ⟨.closed, c⟩ (.OPEN id t) = ⟨.openIdle, ⟨some id, some t, none⟩⟩) ∧
    (∀ (s : Snapshot) (e : DialogEvent),
      s.state ≠ DialogState.closed → (step s e).state ≠ DialogState.closed →
      (step s e).ctx.itemId = s.ctx.itemId) ∧
    (∀ (c : DialogContext) (log : List (Option String)),
      stepLog (⟨.openIdle, c⟩, log) .CONFIRM =
        (⟨.openDeleting, c⟩, log ++ [c.itemId])) ∧
    (∀ (c : DialogContext) (log : List (Option String)) (e : DialogEvent),
      externalEvent e = true →
      stepLog (⟨.openDeleting, c⟩, log) e = (⟨.openDeleting, c⟩, log)) ∧
    (∀ (c : DialogContext) (id t : String) (log : List (Option String)),
      stepLog (stepLog (⟨.closed, c⟩, log) (.OPEN id t)) .CONFIRM =
        (⟨.openDeleting, ⟨some id, some t, none⟩⟩, log ++ [some id])) ∧
    (∀ c : DialogContext,
      step ⟨.openDeleting, c⟩ .invokeDone = ⟨.closed, ⟨none, none, none⟩⟩) := by
  refine ⟨fun c id t => rfl, ?_, ?_, ?_, ?_, fun c => rfl⟩
  · intro s e h1 h2
    obtain ⟨st, c⟩ := s
    cases st <;> cases e <;> simp_all [step, setItemToDelete, clearItem, setError]
  · intro c log
    simp [stepLog, step, invokeInput]
  · intro c log e he
    cases e <;> simp_all [stepLog, step, externalEvent]
  · intro c id t log
    simp [stepLog, step, invokeInput, setItemToDelete]

/-- Witness for C3 at concrete inputs: itemId preservation across a
CONFIRM, and the no-reinvocation fact for a CLOSE received while
deleting. -/
theorem spec_c3_witness :
    (step ⟨DialogState.openIdle, ⟨some "t1", some "A", none⟩⟩ .CONFIRM).ctx.itemId =
      (Snapshot.mk DialogState.openIdle ⟨some "t1", some "A", none⟩).ctx.itemId ∧
    stepLog (⟨DialogState.openDeleting, ⟨some "t1", some "A", none⟩⟩, [some "t1"])
        .CLOSE =
      (⟨DialogState.openDeleting, ⟨some "t1", some "A", none⟩⟩, [some "t1"]) :=
  ⟨spec_c3_confirm_invokes_delete_once.2.1
      ⟨.openIdle, ⟨some "t1", some "A", none⟩⟩ .CONFIRM (by decide) (by decide),
   spec_c3_confirm_invokes_delete_once.2.2.2.1
      ⟨some "t1", some "A", none⟩ [some "t1"] .CLOSE rfl⟩

/-- C4: an actor rejection in `open.deleting` moves the machine to
`open.error`, sets `context.error` to the `Error`'s `.message`, the
rejected string itself, or `"An unknown error occurred"` for any other
value, and leaves `itemId` and `itemTitle` unchanged. -/
theorem spec_c4_error_sets_message :
    (∀ (c : DialogContext) (v : RejectedValue),
      step ⟨.openDeleting, c⟩ (.invokeError v) =
        ⟨.openError, ⟨c.itemId, c.itemTitle, some (errorMessage v)⟩⟩) ∧
    (∀ m : String, errorMessage (.errObj m) = m) ∧
    (∀ s : String, errorMessage (.strVal s) = s) ∧
    errorMessage .otherVal = "An unknown error occurred" :=
  ⟨fun _ _ => rfl, fun _ => rfl, fun _ => rfl, rfl⟩

end DeleteDialog

namespace ConvexBackend

lemma dbGet_dbDelete_self (db : Db) (id : Nat) :
    dbGet (dbDelete db id) id = none := by
  induction db with
  | nil => rfl
  | cons p rest ih =>
      obtain ⟨a, t⟩ := p
      simp only [dbDelete, List.filter_cons] at ih ⊢
      by_cases h : a = id
      · simp [h]
        simpa using ih
      · simp [dbGet, h]
        simpa using ih

lemma dbGet_dbDelete_other (db : Db) (id k : Nat) (hk : k ≠ id) :
    dbGet (dbDelete db id) k = dbGet db k := by
  induction db with
  | nil => rfl
  | cons p rest ih =>
      obtain ⟨a, t⟩ := p
      simp only [dbDelete, List.filter_cons] at ih ⊢
      by_cases h : a = id
      · subst h
        have hak : ¬ a = k := fun h' => hk h'.symm
        simp [dbGet, hak]
        simpa using ih
      · by_cases h2 : a = k
        · simp [dbGet, h, h2, hk]
        · simp [dbGet, h, h2]
          simpa using ih

lemma dbGet_dbPatchCompleted_self (db : Db) (id : Nat) (c : Bool) :
    dbGet (dbPatchCompleted db id c) id =
      (dbGet db id).map (fun t => { t with completed := c }) := by
  induction db with
  | nil => rfl
  | cons p rest ih =>
      obtain ⟨a, t⟩ := p
      simp only [dbPatchCompleted, List.map_cons] at ih ⊢
      by_cases h : a = id
      · subst h
        rw [if_pos (show (a, t).1 = a from rfl)]
        simp [dbGet]
      · rw [if_neg (show ¬ (a, t).1 = id from h)]
        simp [dbGet, h]
        simpa using ih

lemma dbGet_dbPatchCompleted_other (db : Db) (id : Nat) (c : Bool) (k : Nat)
    (hk : k ≠ id) :
    dbGet (dbPatchCompleted db id c) k = dbGet db k := by
  induction db with
  | nil => rfl
  | cons p rest ih =>
      obtain ⟨a, t⟩ := p
      simp only [dbPatchCompleted, List.map_cons] at ih ⊢
      by_cases h : a = id
      · subst h
        have hak : ¬ a = k := fun h' => hk h'.symm
        rw [if_pos (show (a, t).1 = a from rfl)]
        simp [dbGet, hak]
        simpa using ih
      · rw [if_neg (show ¬ (a, t).1 = id from h)]
        by_cases h2 : a = k
        · simp [dbGet, h2]
        · simp [dbGet, h2]
          simpa using ih

/-- C5: `tasks.remove` throws exactly in the three cases —
unauthenticated caller, no task with the given id (`Task not found`),
task owned by someone else (`Unauthorized`) — leaving the table
unchanged in each; otherwise it deletes exactly the task with the
given id: that id no longer resolves, and every other id resolves to
the same document as before. -/
theorem spec_c5_remove_errors_and_deletes_exactly :
    (∀ (db : Db) (id : Nat),
      remove none db id =
        (.error "Unauthorized: You must be logged in to perform this action",
         db)) ∧
    (∀ (subject : String) (db : Db) (id : Nat),
      dbGet db id = none →
      remove (some subject) db id = (.error "Task not found", db)) ∧
    (∀ (subject : String) (db : Db) (id : Nat) (task : Task),
      dbGet db id = some task → task.userId ≠ extractUserId subject →
      remove (some subject) db id = (.error "Unauthorized", db)) ∧
    (∀ (subject : String) (db : Db) (id : Nat) (task : Task),
      dbGet db id = some task → task.userId = extractUserId subject →
      remove (some subject) db id = (.ok (), dbDelete db id) ∧
      dbGet (dbDelete db id) id = none ∧
      (∀ k : Nat, k ≠ id → dbGet (dbDelete db id) k = dbGet db k)) := by
  refine ⟨fun db id => rfl, ?_, ?_, ?_⟩
  · intro subject db id h
    simp [remove, getAuthUserId, h]
  · intro subject db id task h hne
    simp [remove, getAuthUserId, h, hne]
  · intro subject db id task h heq
    exact ⟨by simp [remove, getAuthUserId, h, heq], dbGet_dbDelete_self db id,
      fun k hk => dbGet_dbDelete_other db id k hk⟩

/-- Witness for C5: a concrete one-task table owned by the caller is
emptied by `remove`, and the three error cases at concrete inputs. -/
theorem spec_c5_witness :
    (remove (some "u1|sess") [(0, ⟨"u1", "Buy milk", none, false, 5⟩)] 0 =
      (.ok (), dbDelete [(0, ⟨"u1", "Buy milk", none, false, 5⟩)] 0) ∧
     dbGet (dbDelete [(0, ⟨"u1", "Buy milk", none, false, 5⟩)] 0) 0 = none) ∧
    remove (some "u1|sess") [] 0 = (.error "Task not found", []) ∧
    remove (some "u2|sess") [(0, ⟨"u1", "Buy milk", none, false, 5⟩)] 0 =
      (.error "Unauthorized", [(0, ⟨"u1", "Buy milk", none, false, 5⟩)]) :=
  ⟨⟨(spec_c5_remove_errors_and_deletes_exactly.2.2.2 "u1|sess"
        [(0, ⟨"u1", "Buy milk", none, false, 5⟩)] 0
        ⟨"u1", "Buy milk", none, false, 5⟩ (by decide) (by decide)).1,
    (spec_c5_remove_errors_and_deletes_exactly.2.2.2 "u1|sess"
        [(0, ⟨"u1", "Buy milk", none, false, 5⟩)] 0
        ⟨"u1", "Buy milk", none, false, 5⟩ (by decide) (by decide)).2.1⟩,
   spec_c5_remove_errors_and_deletes_exactly.2.1 "u1|sess" [] 0 rfl,
   spec_c5_remove_errors_and_deletes_exactly.2.2.1 "u2|sess"
      [(0, ⟨"u1", "Buy milk", none, false, 5⟩)] 0
      ⟨"u1", "Buy milk", none, false, 5⟩ (by decide) (by decide)⟩

/-- C6: `tasks.toggle`, on success, flips only the `completed` field
of the addressed task — its `userId`, `title`, `description` and
`createdAt` are unchanged, as is every other task — and throws under
the same three conditions as `tasks.remove`, changing nothing then. -/
theorem spec_c6_toggle_flips_only_completed :
    (∀ (db : Db) (id : Nat),
      toggle none db id =
        (.error "Unauthorized: You must be logged in to perform this action",
         db)) ∧
    (∀ (subject : String) (db : Db) (id : Nat),
      dbGet db id = none →
      toggle (some subject) db id = (.error "Task not found", db)) ∧
    (∀ (subject : String) (db : Db) (id : Nat) (task : Task),
      dbGet db id = some task → task.userId ≠ extractUserId subject →
      toggle (some subject) db id = (.error "Unauthorized", db)) ∧
    (∀ (subject : String) (db : Db) (id : Nat) (task : Task),
      dbGet db id = some task → task.userId = extractUserId subject →
      toggle (some subject) db id =
        (.ok (), dbPatchCompleted db id (!task.completed)) ∧
      dbGet (dbPatchCompleted db id (!task.completed)) id =
        some { userId := task.userId, title := task.title,
               description := task.description,
               completed := !task.completed, createdAt := task.createdAt } ∧
      (∀ k : Nat, k ≠ id →
        dbGet (dbPatchCompleted db id (!task.completed)) k = dbGet db k)) := by
  refine ⟨fun db id => rfl, ?_, ?_, ?_⟩
  · intro subject db id h
    simp [toggle, getAuthUserId, h]
  · intro subject db id task h hne
    simp [toggle, getAuthUserId, h, hne]
  · intro subject db id task h heq
    refine ⟨by simp [toggle, getAuthUserId, h, heq], ?_,
      fun k hk => dbGet_dbPatchCompleted_other db id (!task.completed) k hk⟩
    rw [dbGet_dbPatchCompleted_self, h]
    rfl

/-- Witness for C6: toggling a concrete incomplete task marks exactly
it complete, and the error cases at concrete inputs. -/
theorem spec_c6_witness :
    (toggle (some "u1|sess") [(0, ⟨"u1", "Buy milk", none, false, 5⟩)] 0 =
      (.ok (),
       dbPatchCompleted [(0, ⟨"u1", "Buy milk", none, false, 5⟩)] 0 true) ∧
     dbGet (dbPatchCompleted [(0, ⟨"u1", "Buy milk", none, false, 5⟩)] 0 true)
        0 = some ⟨"u1", "Buy milk", none, true, 5⟩) ∧
    toggle (some "u1|sess") [] 0 = (.error "Task not found", []) ∧
    toggle (some "u2|sess") [(0, ⟨"u1", "Buy milk", none, false, 5⟩)] 0 =
      (.error "Unauthorized", [(0, ⟨"u1", "Buy milk", none, false, 5⟩)]) :=
  ⟨⟨(spec_c6_toggle_flips_only_completed.2.2.2 "u1|sess"
        [(0, ⟨"u1", "Buy milk", none, false, 5⟩)] 0
        ⟨"u1", "Buy milk", none, false, 5⟩ (by decide) (by decide)).1,
    (spec_c6_toggle_flips_only_completed.2.2.2 "u1|sess"
        [(0, ⟨"u1", "Buy milk", none, false, 5⟩)] 0
        ⟨"u1", "Buy milk", none, false, 5⟩ (by decide) (by decide)).2.1⟩,
   spec_c6_toggle_flips_only_completed.2.1 "u1|sess" [] 0 rfl,
   spec_c6_toggle_flips_only_completed.2.2.1 "u2|sess"
      [(0, ⟨"u1", "Buy milk", none, false, 5⟩)] 0
      ⟨"u1", "Buy milk", none, false, 5⟩ (by decide) (by decide)⟩

/-- C7: every `tasks` document conforms to the declared schema
validators, and `tasks.create` inserts a document whose `userId` is
the authenticated caller's id and whose `completed` field is `false`
(throwing the unauthenticated error otherwise). -/
theorem spec_c7_schema_conformance_and_create :
    (∀ t : Task, taskDocConforms (taskToDoc t) = true) ∧
    (∀ (subject : String) (db : Db) (title : String) (descr : Option String)
        (now : Int) (newId : Nat),
      create (some subject) db title descr now newId =
        (.ok (newId, dbInsert db newId
            { userId := extractUserId subject, title := title,
              description := descr, completed := false, createdAt := now }),
         dbInsert db newId
            { userId := extractUserId subject, title := title,
              description := descr, completed := false, createdAt := now })) ∧
    (∀ (db : Db) (title : String) (descr : Option String) (now : Int)
        (newId : Nat),
      create none db title descr now newId =
        (.error "Unauthorized: You must be logged in to perform this action",
         db)) := by
  refine ⟨?_, fun _ _ _ _ _ _ => rfl, fun _ _ _ _ _ => rfl⟩
  intro t
  obtain ⟨u, ti, d, comp, ca⟩ := t
  cases d <;> rfl

end ConvexBackend

namespace ConvexBackend

lemma indexOfPipe_of_not_mem (s : List Char) (h : '|' ∉ s) :
    indexOfPipe s = none := by
  induction s with
  | nil => rfl
  | cons c cs ih =>
      have hc : ¬ c = '|' := fun hc => h (by simp [hc])
      have hcs : '|' ∉ cs := fun hm => h (List.mem_cons_of_mem c hm)
      simp [indexOfPipe, hc, ih hcs]

lemma indexOfPipe_of_mem (s : List Char) (h : '|' ∈ s) :
    ∃ i, indexOfPipe s = some i := by
  induction s with
  | nil => cases h
  | cons c cs ih =>
      by_cases hc : c = '|'
      · exact ⟨0, by simp [indexOfPipe, hc]⟩
      · have hm : '|' ∈ cs := by
          rcases List.mem_cons.mp h with h1 | h2
          · exact absurd h1.symm hc
          · exact h2
        obtain ⟨i, hi⟩ := ih hm
        exact ⟨i + 1, by simp [indexOfPipe, hc, hi]⟩

lemma indexOfPipe_spec (s : List Char) (i : Nat)
    (h : indexOfPipe s = some i) :
    '|' ∉ s.take i ∧ s = s.take i ++ '|' :: s.drop (i + 1) := by
  induction s generalizing i with
  | nil => simp [indexOfPipe] at h
  | cons c cs ih =>
      by_cases hc : c = '|'
      · have hi : i = 0 := by simp [indexOfPipe, hc] at h; omega
        subst hi
        simp [hc]
      · simp only [indexOfPipe, if_neg hc, Option.map_eq_some'] at h
        obtain ⟨j, hj, hij⟩ := h
        obtain ⟨ih1, ih2⟩ := ih j hj
        subst hij
        constructor
        · simp only [List.take_succ_cons, List.mem_cons]
          rintro (h1 | h2)
          · exact hc h1.symm
          · exact ih1 h2
        · simpa [List.take_succ_cons, List.drop_succ_cons] using ih2

lemma indexOfPipe_append (u r : List Char) (h : '|' ∉ u) :
    indexOfPipe (u ++ '|' :: r) = some u.length := by
  induction u with
  | nil => simp [indexOfPipe]
  | cons c cs ih =>
      have hc : ¬ c = '|' := fun hc => h (by simp [hc])
      have hcs : '|' ∉ cs := fun hm => h (List.mem_cons_of_mem c hm)
      simp [indexOfPipe, hc, ih hcs]

/-- C9: `extractUserId` returns the whole subject when it contains no
`"|"`, returns the prefix strictly before the first `"|"` when one
occurs (the subject splits as that pipe-free prefix, the pipe, and a
remainder), and in particular maps `userId ++ "|" ++ sessionId` to
`userId` whenever `userId` contains no `"|"`. -/
theorem spec_c9_extractUserId_splits :
    (∀ s : String, '|' ∉ s.data → extractUserId s = s) ∧
    (∀ s : String, '|' ∈ s.data →
      ∃ rest : List Char,
        s.data = (extractUserId s).data ++ '|' :: rest ∧
        '|' ∉ (extractUserId s).data) ∧
    (∀ u sid : String, '|' ∉ u.data →
      extractUserId (u ++ "|" ++ sid) = u) := by
  refine ⟨?_, ?_, ?_⟩
  · intro s h
    obtain ⟨d⟩ := s
    simp [extractUserId, extractUserIdChars, indexOfPipe_of_not_mem d h]
  · intro s h
    obtain ⟨d⟩ := s
    obtain ⟨i, hi⟩ := indexOfPipe_of_mem d h
    obtain ⟨hnot, hsplit⟩ := indexOfPipe_spec d i hi
    refine ⟨d.drop (i + 1), ?_, ?_⟩
    · simp only [extractUserId, extractUserIdChars, hi]
      exact hsplit
    · simp only [extractUserId, extractUserIdChars, hi]
      exact hnot
  · intro u sid h
    have hdata : (u ++ "|" ++ sid).data = u.data ++ '|' :: sid.data := by
      simp [String.data_append]
    have hchars : extractUserIdChars (u.data ++ '|' :: sid.data) = u.data := by
      simp only [extractUserIdChars, indexOfPipe_append u.data sid.data h]
      exact List.take_left u.data ('|' :: sid.data)
    show String.mk (extractUserIdChars (u ++ "|" ++ sid).data) = u
    rw [hdata, hchars]

/-- Witness for C9 at concrete subjects, with and without a pipe. -/
theorem spec_c9_witness :
    extractUserId "user123" = "user123" ∧
    extractUserId ("user123" ++ "|" ++ "sess9") = "user123" :=
  ⟨spec_c9_extractUserId_splits.1 "user123" (by decide),
   spec_c9_extractUserId_splits.2.2 "user123" "sess9" (by decide)⟩

/-- Witness for C7: a concrete document conforms to the schema, and a
concrete `create` call inserts it with the caller's id and
`completed = false`. -/
theorem spec_c7_witness :
    taskDocConforms (taskToDoc ⟨"u1", "Buy milk", none, false, 5⟩) = true ∧
    create (some "u1|sess") [] "Buy milk" none 5 0 =
      (.ok (0, [(0, ⟨"u1", "Buy milk", none, false, 5⟩)]),
       [(0, ⟨"u1", "Buy milk", none, false, 5⟩)]) := by
  constructor
  · exact spec_c7_schema_conformance_and_create.1 ⟨"u1", "Buy milk", none, false, 5⟩
  · have h := spec_c7_schema_conformance_and_create.2.1 "u1|sess" [] "Buy milk" none 5 0
    have hu : extractUserId "u1|sess" = "u1" := by decide
    rw [hu] at h
    simpa [dbInsert] using h

end ConvexBackend

namespace DeleteDialog

/-- Witness for C2 (amended) at concrete inputs: opening and retrying. -/
theorem spec_c2_witness :
    step ⟨DialogState.closed, clearItem⟩ (.OPEN "t1" "A") =
      ⟨DialogState.openIdle, ⟨some "t1", some "A", none⟩⟩ ∧
    step ⟨DialogState.openError, clearItem⟩ .RETRY =
      ⟨DialogState.openDeleting, clearItem⟩ :=
  ⟨spec_c2_amended_lifecycle.1 clearItem "t1" "A",
   spec_c2_amended_lifecycle.2.2.2.2.2 clearItem⟩

/-- Witness for C4 at a concrete rejection carrying an `Error`. -/
theorem spec_c4_witness :
    step ⟨DialogState.openDeleting, ⟨some "t1", some "A", none⟩⟩
        (.invokeError (.errObj "Network failure")) =
      ⟨DialogState.openError, ⟨some "t1", some "A", some "Network failure"⟩⟩ :=
  spec_c4_error_sets_message.1 ⟨some "t1", some "A", none⟩
    (.errObj "Network failure")

/-- C10: `isDialogOpen` holds exactly on the open compound state — the
three open substates, equivalently every state other than `closed` —
and agrees with the raw-state-value branch that tests for an `"open"`
key in the state value. -/
theorem spec_c10_isDialogOpen_iff_open :
    (∀ st : DialogState, isDialogOpen st = true ↔ st ≠ DialogState.closed) ∧
    (∀ st : DialogState,
      isDialogOpen st = rawValueHasOpenKey (stateValue st)) := by
  constructor <;> intro st <;> cases st <;> decide

/-- Witness for C10 at concrete states. -/
theorem spec_c10_witness :
    isDialogOpen DialogState.openDeleting = true ∧
    isDialogOpen DialogState.closed =
      rawValueHasOpenKey (stateValue DialogState.closed) :=
  ⟨(spec_c10_isDialogOpen_iff_open.1 DialogState.openDeleting).mpr (by decide),
   spec_c10_isDialogOpen_iff_open.2 DialogState.closed⟩

end DeleteDialog
